import Mathlib

/-!
Verification of FLogFS (src/src/flogfs.c) against its specification.

The C source is shallowly embedded: each modelled C function becomes an
executable Lean definition over explicit state values.  Machine integers are
modelled as `Nat`; NAND "all-ones / unwritten" sentinels are the maximum
value of the corresponding integer width.  The configuration constants and
the on-flash record layouts live in headers that are not part of the staged
sources, so they are modelled from the specification (sections 3, 6.3 and
8.3); every such definition is marked `Modelled from the spec`.
-/

namespace FLogFS

/-- Modelled from the spec (section 8.3): number of erase blocks. -/
def FS_NUM_BLOCKS : Nat := 16

/-- Modelled from the spec (section 8.3): sectors per program page. -/
def FS_SECTORS_PER_PAGE : Nat := 4

/-- Modelled from the spec (section 8.3): pages per erase block. -/
def FS_PAGES_PER_BLOCK : Nat := 64

/-- Modelled from the spec (section 8.3): bytes per sector. -/
def FS_SECTOR_SIZE : Nat := 512

/-- Modelled from the spec (section 8.3): bound of the preallocation list. -/
def FS_PREALLOCATE_SIZE : Nat := 4

/-- Modelled from the spec (section 8.3): filename field size. -/
def FLOG_MAX_FNAME_LEN : Nat := 32

/-- Sectors per block, as in the private header. -/
def FS_SECTORS_PER_BLOCK : Nat := FS_PAGES_PER_BLOCK * FS_SECTORS_PER_PAGE

/-- Modelled from the spec (section 3.4): the tail sector of a file block
lives in page 0; `flog_increment_sector` skips from it straight to
`FS_SECTORS_PER_PAGE`, so it is the next-to-last sector of page 0. -/
def FLOG_FILE_TAIL_SECTOR : Nat := FS_SECTORS_PER_PAGE - 2

/-- Modelled from the spec (section 3.4): the invalidation sector is the
remaining sector of page 0, never visited by `flog_increment_sector`. -/
def FLOG_FILE_INVALIDATION_SECTOR : Nat := FS_SECTORS_PER_PAGE - 1

/-- Modelled from the spec (section 3.2): all-ones sentinel of the 16-bit
block index type `flog_block_idx_t`. -/
def FLOG_BLOCK_IDX_INVALID : Nat := 65535

/-- Modelled from the spec (section 3.2): all-ones sentinel of the 32-bit
block age type `flog_block_age_t` (mount uses the literal 0xFFFFFFFF). -/
def FLOG_BLOCK_AGE_INVALID : Nat := 4294967295

/-- Modelled from the spec (section 3.2): all-ones sentinel of the 32-bit
timestamp type `flog_timestamp_t`. -/
def FLOG_TIMESTAMP_INVALID : Nat := 4294967295

/-- Modelled from the spec (section 3.3): all-ones sentinel of the 32-bit
file id type `flog_file_id_t`. -/
def FLOG_FILE_ID_INVALID : Nat := 4294967295

/-- Modelled from the spec (section 3.4): all-ones sentinel of the 16-bit
per-sector spare byte count `flog_sector_nbytes_t`. -/
def FLOG_SECTOR_NBYTES_INVALID : Nat := 65535

/-- Modelled from the spec (sections 3.1 and 3.3): spare `type_id` values.
UNALLOCATED is the all-ones pattern of the field; INODE and FILE are the
two programmed discriminators (their concrete numbers are irrelevant, only
distinctness and the all-ones encoding of UNALLOCATED matter). -/
def FLOG_BLOCK_TYPE_INODE : Nat := 1

/-- Modelled from the spec (sections 3.1 and 3.3): the FILE discriminator. -/
def FLOG_BLOCK_TYPE_FILE : Nat := 2

/-- Modelled from the spec (sections 3.1 and 3.3): UNALLOCATED reads as the
all-ones pattern of the 8-bit `type_id` field. -/
def FLOG_BLOCK_TYPE_UNALLOCATED : Nat := 255

/-- Modelled from the spec (sections 3.4 and 6.3): size of
`flog_file_sector0_header_t` = `{file_id : u32, age : u32}`. -/
def sizeof_file_sector0_header : Nat := 8

/-- Modelled from the spec (sections 3.4 and 6.3): size of
`flog_file_tail_sector_header_t` =
`{next_block : u16, next_age : u32, timestamp : u32, bytes_in_block : u32}`
with 32-bit alignment padding. -/
def sizeof_file_tail_sector_header : Nat := 16

/-- The universal `flog_result_t` of the source: FLOG_FAILURE or
FLOG_SUCCESS. -/
inductive flog_result_t where
  | FLOG_FAILURE : flog_result_t
  | FLOG_SUCCESS : flog_result_t
deriving Repr, DecidableEq

/-- The state field `flog_state_t` of `flogfs_t`. -/
inductive flog_state_t where
  | FLOG_STATE_RESET : flog_state_t
  | FLOG_STATE_MOUNTED : flog_state_t
deriving Repr, DecidableEq

/-!
## Open-file lists (flogfs_close_read, flogfs_close_write)

The intrusive singly linked lists of open descriptors are embedded as lists
of descriptor identities (`Nat`); the `next` pointers of the C structs are
the list structure itself.  An empty list whose head is compared against a
non-null descriptor makes the C walk dereference a null pointer, which the
embedding returns as `none`.
-/

/-- The unlink walk shared by both close functions (flogfs.c lines 743-750
and 1076-1083): `iter` runs over the tail of the list and splices out the
first node equal to the closed descriptor, then the walk stops. -/
def close_list_unlink (f : Nat) : List Nat → List Nat
  | [] => []
  | x :: xs => if x = f then xs else x :: close_list_unlink f xs

/-- flogfs_close_read (flogfs.c lines 737-759).  If the descriptor is the
list head the source sets `read_head = 0` (emptying the whole list) and
returns FLOG_SUCCESS; otherwise it unlinks the first occurrence of the
descriptor from the tail and then falls into the `failure` label, returning
FLOG_FAILURE whether or not the descriptor was found.  With an empty list
and a non-matching descriptor the source dereferences a null `iter`,
embedded as `none`. -/
def flogfs_close_read (l : List Nat) (f : Nat) : Option (List Nat × flog_result_t) :=
  match l with
  | [] => none
  | h :: t =>
      if h = f then some ([], flog_result_t.FLOG_SUCCESS)
      else some (h :: close_list_unlink f t, flog_result_t.FLOG_FAILURE)

/-- flogfs_close_write (flogfs.c lines 1065-1099).  Same list handling as
`flogfs_close_read`; only in the head case does control reach
`flog_flush_write(file)` (line 1087), whose outcome is the oracle
`flushResult`.  The middle component records which descriptors were
flushed. -/
def flogfs_close_write (l : List Nat) (f : Nat)
    (flushResult : Nat → flog_result_t) :
    Option (List Nat × List Nat × flog_result_t) :=
  match l with
  | [] => none
  | h :: t =>
      if h = f then some ([], [f], flushResult f)
      else some (h :: close_list_unlink f t, [], flog_result_t.FLOG_FAILURE)

/-!
## Block allocator and preallocation list

Flash content is embedded as a total function from block index to the
metadata the allocator and mount scan read: page-0 open result, bad-block
flag, sector-0 spare (`type_id`, `inode_index`), sector-0 header
(`age`, `file_id`), the invalidation-sector timestamp and the tail-sector
header fields.
-/

/-- The `flog_block_alloc_t` pair of flogfs.c lines 56-59. -/
structure flog_block_alloc_t where
  block : Nat
  age : Nat
deriving Repr, DecidableEq

/-- Per-block flash metadata read by the allocator and the mount scan. -/
structure FlashBlock where
  openOk : Bool
  bad : Bool
  type_id : Nat
  inode_index : Nat
  s0_age : Nat
  s0_file_id : Nat
  inv_timestamp : Nat
  tail_timestamp : Nat
  tail_next_block : Nat
  tail_next_age : Nat
deriving Repr, DecidableEq

/-- The preallocation list (flogfs.c lines 61-68): the live entries
`blocks[0 .. n-1]` as a list (so `n` is the length) plus `age_sum`. -/
structure flog_prealloc_list_t where
  blocks : List flog_block_alloc_t
  age_sum : Nat
deriving Repr, DecidableEq

/-- The age of entry `i` of the list, `blocks[i].age` in the source. -/
def prealloc_entry_age (l : List flog_block_alloc_t) (i : Nat) : Nat :=
  (l.getD i ⟨0, 0⟩).age

/-- The index scan of flog_prealloc_push (flogfs.c lines 1383-1409):
`for(i = n - 1; i; i--) if(age <= blocks[i].age) ...` — the loop runs
`i = n-1, n-2, ..., 1` and stops at the first index whose age is at least
the pushed age; index 0 is never examined because the loop guard is `i`.
Called with argument `n - 1`. -/
def flog_prealloc_push_find (l : List flog_block_alloc_t) (age : Nat) :
    Nat → Option Nat
  | 0 => none
  | i + 1 =>
      if age ≤ prealloc_entry_age l (i + 1) then some (i + 1)
      else flog_prealloc_push_find l age i

/-- flog_prealloc_push (flogfs.c lines 1368-1410).  Empty list: the entry
becomes `blocks[0]` and `age_sum` grows.  Full list with a strictly older
pushed age than the last entry: drop the push.  Otherwise run the index
scan; on a hit at `i`, when the list is full subtract the last entry's age
from `age_sum`, shift `blocks[i .. ]` one slot towards the end (losing the
last entry when full), store the new entry at `i` and add its age; when the
scan falls through (it never examines index 0) nothing is stored. -/
def flog_prealloc_push (st : flog_prealloc_list_t) (block age : Nat) :
    flog_prealloc_list_t :=
  let n := st.blocks.length
  if n = 0 then
    { blocks := [⟨block, age⟩], age_sum := st.age_sum + age }
  else if n = FS_PREALLOCATE_SIZE ∧ prealloc_entry_age st.blocks (n - 1) < age then
    st
  else
    match flog_prealloc_push_find st.blocks age (n - 1) with
    | none => st
    | some i =>
        let sum1 :=
          if n = FS_PREALLOCATE_SIZE then
            st.age_sum - prealloc_entry_age st.blocks (FS_PREALLOCATE_SIZE - 1)
          else st.age_sum
        let bs :=
          if n = FS_PREALLOCATE_SIZE then
            st.blocks.take i ++ ⟨block, age⟩ :: (st.blocks.drop i).dropLast
          else
            st.blocks.take i ++ ⟨block, age⟩ :: st.blocks.drop i
        { blocks := bs, age_sum := sum1 + age }

/-- flog_prealloc_pop (flogfs.c lines 1412-1428): take entry 0 and shift the
rest forward; `age_sum` is not adjusted by the source.  On an empty list the
result block is the invalid sentinel (the age field is left unspecified by
the source; 0 here). -/
def flog_prealloc_pop (st : flog_prealloc_list_t) :
    flog_block_alloc_t × flog_prealloc_list_t :=
  match st.blocks with
  | [] => (⟨FLOG_BLOCK_IDX_INVALID, 0⟩, st)
  | b :: rest => (b, { blocks := rest, age_sum := st.age_sum })

/-- flog_allocate_block_iterate (flogfs.c lines 1325-1366): classify the
block at the given head — sector-0 age all-ones means never allocated (free
with age 0), else a written invalidation timestamp means freed (free with
the sector-0 age), else in use — and advance the head modulo
`FS_NUM_BLOCKS`. -/
def flog_allocate_block_iterate (flash : Nat → FlashBlock) (head : Nat) :
    flog_block_alloc_t × Nat :=
  let b := flash head
  let blk : flog_block_alloc_t :=
    if b.s0_age = FLOG_BLOCK_AGE_INVALID then ⟨head, 0⟩
    else if b.inv_timestamp ≠ FLOG_TIMESTAMP_INVALID then ⟨head, b.s0_age⟩
    else ⟨FLOG_BLOCK_IDX_INVALID, 0⟩
  (blk, (head + 1) % FS_NUM_BLOCKS)

/-- The scan loop of flog_allocate_block (flogfs.c lines 1666-1672):
`for(i = FS_NUM_BLOCKS; i; i--)` calling the iterator until it yields a
valid block; the final head is returned alongside. -/
def flog_allocate_scan (flash : Nat → FlashBlock) :
    Nat → Nat → flog_block_alloc_t × Nat
  | 0, head => (⟨FLOG_BLOCK_IDX_INVALID, 0⟩, head)
  | i + 1, head =>
      let r := flog_allocate_block_iterate flash head
      if r.1.block ≠ FLOG_BLOCK_IDX_INVALID then r
      else flog_allocate_scan flash i r.2

/-- The allocator-related fields of `flogfs_t`. -/
structure AllocState where
  num_free_blocks : Nat
  prealloc : flog_prealloc_list_t
  allocate_head : Nat
deriving Repr, DecidableEq

/-- flog_allocate_block (flogfs.c lines 1644-1676): bail out with the
invalid sentinel when `num_free_blocks == 0`; otherwise pop the
preallocation list and return its entry 0 when non-empty; otherwise run the
scan loop for at most `FS_NUM_BLOCKS` iterations. -/
def flog_allocate_block (flash : Nat → FlashBlock) (st : AllocState) :
    flog_block_alloc_t × AllocState :=
  if st.num_free_blocks = 0 then (⟨FLOG_BLOCK_IDX_INVALID, 0⟩, st)
  else
    let p := flog_prealloc_pop st.prealloc
    if p.1.block ≠ FLOG_BLOCK_IDX_INVALID then (p.1, { st with prealloc := p.2 })
    else
      let s := flog_allocate_scan flash FS_NUM_BLOCKS st.allocate_head
      (s.1, { st with prealloc := p.2, allocate_head := s.2 })

/-- The claim's classification of one scanned block: the free candidate the
iterator would yield for it, or `none` for an in-use block. -/
def flog_scan_free_candidate (flash : Nat → FlashBlock) (b : Nat) :
    Option flog_block_alloc_t :=
  if (flash b).s0_age = FLOG_BLOCK_AGE_INVALID then some ⟨b, 0⟩
  else if (flash b).inv_timestamp ≠ FLOG_TIMESTAMP_INVALID then
    some ⟨b, (flash b).s0_age⟩
  else none

/-!
## Free-block accounting (claim C1)

`num_free_blocks` is recomputed the way the mount scan counts it: blocks
whose spare `type_id` is the UNALLOCATED all-ones sentinel plus blocks with
a programmed invalidation timestamp.  Searching flogfs.c for
`num_free_blocks` shows it is set in the mount scan (lines 421, 512, 527)
and incremented in flog_invalidate_chain (line 1631), but no code path ever
decrements it: flog_allocate_block and the subsequent sector-0 programming
(flogfs_open_write lines 996-1030, flog_commit_file_sector lines
1268-1310) leave the counter untouched while removing a block from the
recomputed count.
-/

/-- The count of free blocks as a scan of flash recomputes it (spec
invariant 5): UNALLOCATED blocks plus blocks with a programmed
invalidation-sector timestamp. -/
def flog_recomputed_free_blocks (flash : Nat → FlashBlock) : Nat :=
  ((List.range FS_NUM_BLOCKS).filter
    (fun b => decide ((flash b).type_id = FLOG_BLOCK_TYPE_UNALLOCATED))).length
  + ((List.range FS_NUM_BLOCKS).filter
    (fun b => decide ((flash b).inv_timestamp ≠ FLOG_TIMESTAMP_INVALID))).length

/-- The flash effect of erasing a freshly allocated block and programming
its sector-0 header (flogfs_open_write lines 1019-1030 together with the
first flog_commit_file_sector of the block, lines 1283-1297): the block
becomes a FILE block with a written age and file id and an unwritten
invalidation and tail sector. -/
def flog_program_sector0 (flash : Nat → FlashBlock) (b file_id age : Nat) :
    Nat → FlashBlock :=
  fun i =>
    if i = b then
      { openOk := true, bad := false, type_id := FLOG_BLOCK_TYPE_FILE,
        inode_index := 0, s0_age := age, s0_file_id := file_id,
        inv_timestamp := FLOG_TIMESTAMP_INVALID,
        tail_timestamp := FLOG_TIMESTAMP_INVALID,
        tail_next_block := FLOG_BLOCK_IDX_INVALID,
        tail_next_age := FLOG_BLOCK_AGE_INVALID }
    else flash i

/-- Consuming a free block: flog_allocate_block followed by programming the
returned block's sector-0 header with the incremented age, exactly as
flogfs_open_write does for a new file (lines 994-1030).  No source line
adjusts `num_free_blocks` in this sequence, so the model leaves the stored
counter unchanged. -/
def flog_allocate_and_program (flash : Nat → FlashBlock) (st : AllocState)
    (file_id : Nat) : (Nat → FlashBlock) × AllocState × flog_block_alloc_t :=
  let r := flog_allocate_block flash st
  if r.1.block = FLOG_BLOCK_IDX_INVALID then (flash, r.2, r.1)
  else (flog_program_sector0 flash r.1.block file_id (r.1.age + 1), r.2, r.1)

/-- A mounted configuration for the accounting counterexample: block 0 a
live inode block, block 1 unallocated (erased, all-ones), blocks 2-15 live
file blocks.  The mount scan computes `num_free_blocks = 1` for it. -/
def flashC1 : Nat → FlashBlock :=
  fun b =>
    if b = 0 then
      { openOk := true, bad := false, type_id := FLOG_BLOCK_TYPE_INODE,
        inode_index := 0, s0_age := 0, s0_file_id := FLOG_FILE_ID_INVALID,
        inv_timestamp := FLOG_TIMESTAMP_INVALID,
        tail_timestamp := FLOG_TIMESTAMP_INVALID,
        tail_next_block := FLOG_BLOCK_IDX_INVALID,
        tail_next_age := FLOG_BLOCK_AGE_INVALID }
    else if b = 1 then
      { openOk := true, bad := false,
        type_id := FLOG_BLOCK_TYPE_UNALLOCATED, inode_index := 0,
        s0_age := FLOG_BLOCK_AGE_INVALID, s0_file_id := FLOG_FILE_ID_INVALID,
        inv_timestamp := FLOG_TIMESTAMP_INVALID,
        tail_timestamp := FLOG_TIMESTAMP_INVALID,
        tail_next_block := FLOG_BLOCK_IDX_INVALID,
        tail_next_age := FLOG_BLOCK_AGE_INVALID }
    else
      { openOk := true, bad := false, type_id := FLOG_BLOCK_TYPE_FILE,
        inode_index := 0, s0_age := 1, s0_file_id := 3,
        inv_timestamp := FLOG_TIMESTAMP_INVALID,
        tail_timestamp := FLOG_TIMESTAMP_INVALID,
        tail_next_block := FLOG_BLOCK_IDX_INVALID,
        tail_next_age := FLOG_BLOCK_AGE_INVALID }

/-- The allocator state right after mounting `flashC1`: stored counter 1
(matching the recomputed count), empty preallocation list, allocate head
at block 0. -/
def allocStC1 : AllocState :=
  { num_free_blocks := 1, prealloc := { blocks := [], age_sum := 0 },
    allocate_head := 0 }

/-- A configuration for exercising the allocator scan: block 1 erased
(never allocated, sector-0 age all-ones), every other block an in-use file
block. -/
def allocFlashW : Nat → FlashBlock :=
  fun b =>
    if b = 1 then
      { openOk := true, bad := false,
        type_id := FLOG_BLOCK_TYPE_UNALLOCATED, inode_index := 0,
        s0_age := FLOG_BLOCK_AGE_INVALID, s0_file_id := FLOG_FILE_ID_INVALID,
        inv_timestamp := FLOG_TIMESTAMP_INVALID,
        tail_timestamp := FLOG_TIMESTAMP_INVALID,
        tail_next_block := FLOG_BLOCK_IDX_INVALID,
        tail_next_age := FLOG_BLOCK_AGE_INVALID }
    else
      { openOk := true, bad := false, type_id := FLOG_BLOCK_TYPE_FILE,
        inode_index := 0, s0_age := 4, s0_file_id := 9,
        inv_timestamp := FLOG_TIMESTAMP_INVALID,
        tail_timestamp := FLOG_TIMESTAMP_INVALID,
        tail_next_block := FLOG_BLOCK_IDX_INVALID,
        tail_next_age := FLOG_BLOCK_AGE_INVALID }

/-- Allocator state with one free block, an empty preallocation list and
the rotating head at block 0. -/
def allocStW : AllocState :=
  { num_free_blocks := 1, prealloc := { blocks := [], age_sum := 0 },
    allocate_head := 0 }

/-!
## File writer (flogfs_write, flog_commit_file_sector)

The write-file descriptor is embedded with the byte-accounting fields the
source updates; the bytes inside `sector_buffer` are not modelled (claim C4
is about counts, allocation failure and sealing, not payload values).  The
allocator behind `flog_flush_dirty_block(); flog_allocate_block()` in the
tail-sector branch (flogfs.c lines 1221-1236) is abstracted as the `supply`
list of blocks it will hand out, in order: an empty supply is the
"no free block available" case in which flog_allocate_block returns the
invalid sentinel.  `sealed` records the blocks whose tail sector has been
programmed.  The dirty-block flush inside the tail branch commits another
file's pending sector and touches none of the fields modelled here (at a
tail commit the current file cannot be the dirty one, since its own sector 0
was committed earlier in the block, clearing the marker at lines
1275-1277).
-/

/-- The byte-accounting fields of `flog_write_file_t`. -/
structure flog_write_file_t where
  block : Nat
  block_age : Nat
  sector : Nat
  offset : Nat
  sector_remaining_bytes : Nat
  bytes_in_block : Nat
  write_head : Nat
  id : Nat
deriving Repr, DecidableEq

/-- State threaded through the writer: the descriptor, the allocator
supply, the set of sealed blocks and the timestamp counter. -/
structure WriteSt where
  file : flog_write_file_t
  supply : List flog_block_alloc_t
  sealed : List Nat
  t : Nat
deriving Repr, DecidableEq

/-- flog_increment_sector (flogfs.c lines 1678-1687): the logical sector
order 0, 1, then page 1 onwards, with the tail sector of page 0 last. -/
def flog_increment_sector (sector : Nat) : Nat :=
  if sector = FLOG_FILE_TAIL_SECTOR - 1 then FS_SECTORS_PER_PAGE
  else if sector = FS_PAGES_PER_BLOCK * FS_SECTORS_PER_PAGE - 1 then
    FLOG_FILE_TAIL_SECTOR
  else sector + 1

/-- flog_commit_file_sector (flogfs.c lines 1212-1311).  Tail sector: flush
the dirty block, allocate the next block — bailing out with FLOG_FAILURE
(`none`) when none is available, before writing anything — else seal the
current block (program its tail header, stamping `++t`) and move the
descriptor to sector 0 of the new block.  Non-tail sector: program the
buffered bytes and spare, then advance to `flog_increment_sector` of the
current sector with the offset implied by the new sector's header. -/
def flog_commit_file_sector (st : WriteSt) (n : Nat) : Option WriteSt :=
  if st.file.sector = FLOG_FILE_TAIL_SECTOR then
    match st.supply with
    | [] => none
    | nb :: rest =>
        some { file := { block := nb.block, block_age := nb.age, sector := 0,
                         offset := sizeof_file_sector0_header,
                         sector_remaining_bytes :=
                           FS_SECTOR_SIZE - sizeof_file_sector0_header,
                         bytes_in_block := 0,
                         write_head := st.file.write_head + n,
                         id := st.file.id },
               supply := rest,
               sealed := st.sealed ++ [st.file.block],
               t := st.t + 1 }
  else
    let sector1 := flog_increment_sector st.file.sector
    let offset1 :=
      if sector1 = FLOG_FILE_TAIL_SECTOR then sizeof_file_tail_sector_header
      else 0
    some { st with file := { st.file with
             sector := sector1, offset := offset1,
             bytes_in_block := st.file.bytes_in_block + n,
             sector_remaining_bytes := FS_SECTOR_SIZE - offset1,
             write_head := st.file.write_head + n } }

/-- The loop of flogfs_write (flogfs.c lines 875-897): while bytes remain,
either commit a full sector (returning the count so far if the commit
fails) or cache the final partial chunk in the sector buffer.  The fuel is
a bound on the iteration count; `flogfs_write` supplies enough. -/
def flogfs_write_loop : WriteSt → Nat → Nat → Nat → Nat × WriteSt
  | st, _, count, 0 => (count, st)
  | st, nbytes, count, fuel + 1 =>
      if nbytes = 0 then (count, st)
      else if st.file.sector_remaining_bytes ≤ nbytes then
        match flog_commit_file_sector st st.file.sector_remaining_bytes with
        | none => (count, st)
        | some st1 =>
            flogfs_write_loop st1 (nbytes - st.file.sector_remaining_bytes)
              (count + st.file.sector_remaining_bytes) fuel
      else
        (count + nbytes,
         { st with file := { st.file with
             sector_remaining_bytes := st.file.sector_remaining_bytes - nbytes,
             offset := st.file.offset + nbytes,
             bytes_in_block := st.file.bytes_in_block + nbytes,
             write_head := st.file.write_head + nbytes } })

/-- flogfs_write (flogfs.c lines 868-904): run the loop; each iteration
that does not return consumes at least one byte of the request, so
`nbytes + 1` fuel is never exhausted. -/
def flogfs_write (st : WriteSt) (nbytes : Nat) : Nat × WriteSt :=
  flogfs_write_loop st nbytes 0 (nbytes + 1)

/-- A write state at the tail sector with no free block left: committing
the tail must fail and flogfs_write must return the bytes cached so far. -/
def writeStW : WriteSt :=
  { file := { block := 1, block_age := 2, sector := FLOG_FILE_TAIL_SECTOR,
              offset := sizeof_file_tail_sector_header,
              sector_remaining_bytes :=
                FS_SECTOR_SIZE - sizeof_file_tail_sector_header,
              bytes_in_block := 100, write_head := 100, id := 1 },
    supply := [], sealed := [], t := 3 }

/-!
## File reader (flogfs_read)

Flash as the reader consumes it: per block the sector-0 header's file id,
the per-sector spare byte counts and the tail header's next-block link.
The destination bytes are not modelled; claim C5 concerns the returned
count and the end-of-file conditions.
-/

/-- Flash contents as read by flogfs_read. -/
structure ReadFlash where
  file_id : Nat → Nat
  spare_nbytes : Nat → Nat → Nat
  next_block : Nat → Nat

/-- The fields of `flog_read_file_t`. -/
structure flog_read_file_t where
  block : Nat
  sector : Nat
  offset : Nat
  read_head : Nat
  sector_remaining_bytes : Nat
  id : Nat
deriving Repr, DecidableEq

/-- The loop of flogfs_read (flogfs.c lines 782-858).  While bytes are
requested: with the current sector exhausted, advance — at the tail sector
follow the tail's next-block link and stop (EOF) when the next block's
sector-0 file id differs from the file's; elsewhere step to
`flog_increment_sector` and stop (EOF) when its spare byte count reads
all-ones — setting the offset from the new sector as the source's switch
does and the remaining count from the spare just read (at a tail-to-block
advance the source uses the sector-0 spare count even when it lands on
sector 1, which is reproduced here); with data available, copy
`min(nbytes, sector_remaining_bytes)` bytes and advance the position.  The
fuel bounds the iterations: the C loop does not terminate on flash whose
chain links cycle, and every conclusion below holds for every fuel. -/
def flogfs_read_loop (fl : ReadFlash) :
    flog_read_file_t → Nat → Nat → Nat → Nat × flog_read_file_t
  | file, _, count, 0 => (count, file)
  | file, nbytes, count, fuel + 1 =>
      if nbytes = 0 then (count, file)
      else if file.sector_remaining_bytes = 0 then
        if file.sector = FLOG_FILE_TAIL_SECTOR then
          let block := fl.next_block file.block
          if fl.file_id block ≠ file.id then (count, file)
          else
            let nb := fl.spare_nbytes block 0
            let sector1 := if nb = 0 then 1 else 0
            let offset1 :=
              if sector1 = FLOG_FILE_TAIL_SECTOR then
                sizeof_file_tail_sector_header
              else if sector1 = 0 then sizeof_file_sector0_header
              else 0
            flogfs_read_loop fl
              { file with
                  block := block, sector := sector1,
                  sector_remaining_bytes := nb, offset := offset1 }
              nbytes count fuel
        else
          let sector1 := flog_increment_sector file.sector
          let nb := fl.spare_nbytes file.block sector1
          if nb = FLOG_SECTOR_NBYTES_INVALID then (count, file)
          else
            let offset1 :=
              if sector1 = FLOG_FILE_TAIL_SECTOR then
                sizeof_file_tail_sector_header
              else if sector1 = 0 then sizeof_file_sector0_header
              else 0
            flogfs_read_loop fl
              { file with
                  sector := sector1,
                  sector_remaining_bytes := nb, offset := offset1 }
              nbytes count fuel
      else
        let to_read := min nbytes file.sector_remaining_bytes
        flogfs_read_loop fl
          { file with
              offset := file.offset + to_read,
              sector_remaining_bytes := file.sector_remaining_bytes - to_read,
              read_head := file.read_head + to_read }
          (nbytes - to_read) (count + to_read) fuel

/-- flogfs_read (flogfs.c lines 761-866): the loop started with a zero
count; the returned first component is the byte count handed back to the
caller (the function has no error channel — EOF simply stops the loop). -/
def flogfs_read (fl : ReadFlash) (file : flog_read_file_t)
    (nbytes fuel : Nat) : Nat × flog_read_file_t :=
  flogfs_read_loop fl file nbytes 0 fuel

/-- A reader positioned at an exhausted tail sector whose chain was never
extended: the successor block's sector-0 file id is the all-ones sentinel,
not the file's id 5. -/
def readFlashW : ReadFlash :=
  { file_id := fun b => if b = 0 then 5 else FLOG_FILE_ID_INVALID,
    spare_nbytes := fun _ _ => FLOG_SECTOR_NBYTES_INVALID,
    next_block := fun _ => 3 }

/-- The descriptor for the reader EOF witness. -/
def readFileW : flog_read_file_t :=
  { block := 0, sector := FLOG_FILE_TAIL_SECTOR,
    offset := sizeof_file_tail_sector_header, read_head := 100,
    sector_remaining_bytes := 0, id := 5 }

/-!
## Directory search (flog_find_file) and listing (flogfs_ls_iterate)

The inode-entry stream produced by the inode iterator (sector pairs from
`inode0` onwards, flogfs.c lines 1463-1515) is embedded as a total function
from entry index to the pair's contents: the allocation record's file id,
first block and filename bytes, and the paired invalidation sector's
timestamp.  Filenames are byte lists; a byte past the end of the list reads
as 0, matching the nul padding of the fixed-size field.
-/

/-- One inode entry: the allocation record (even sector) and the paired
invalidation record's timestamp (odd sector). -/
structure flog_inode_file_entry_t where
  file_id : Nat
  first_block : Nat
  filename : List Nat
  inv_timestamp : Nat

/-- The `flog_file_find_result_t` pair of flogfs.c lines 75-78.  On the
failure path the source only assigns `first_block`; the model fixes the
unspecified `file_id` to 0. -/
structure flog_file_find_result_t where
  file_id : Nat
  first_block : Nat
deriving Repr, DecidableEq

/-- The `strncmp(a, b, n) == 0` test of C: compare byte by byte from index
`i` with at most `n` comparisons, stopping early at a difference (unequal)
or at a common nul terminator (equal). -/
def cstr_eq_n (a b : List Nat) : Nat → Nat → Bool
  | _, 0 => true
  | i, n + 1 =>
      let x := a.getD i 0
      let y := b.getD i 0
      if x = y then (if x = 0 then true else cstr_eq_n a b (i + 1) n)
      else false

/-- The loop of flog_find_file (flogfs.c lines 1703-1746) over the entry
stream: an entry with the all-ones file id ends the directory (not found);
an entry whose filename differs under `strncmp` with bound
`FLOG_MAX_FNAME_LEN` is skipped; a matching entry whose invalidation
timestamp is written (file deleted) is skipped; the first matching entry
with an unwritten invalidation timestamp is returned.  Advancing moves to
the shifted stream; the fuel bounds the walk (the C loop runs until an
all-ones file id is reached). -/
def flog_find_file_loop (filename : List Nat) :
    (Nat → flog_inode_file_entry_t) → Nat → flog_file_find_result_t
  | _, 0 => { file_id := 0, first_block := FLOG_BLOCK_IDX_INVALID }
  | entry, fuel + 1 =>
      if (entry 0).file_id = FLOG_FILE_ID_INVALID then
        { file_id := 0, first_block := FLOG_BLOCK_IDX_INVALID }
      else if cstr_eq_n filename (entry 0).filename 0 FLOG_MAX_FNAME_LEN
          = false then
        flog_find_file_loop filename (fun j => entry (j + 1)) fuel
      else if (entry 0).inv_timestamp ≠ FLOG_TIMESTAMP_INVALID then
        flog_find_file_loop filename (fun j => entry (j + 1)) fuel
      else
        { file_id := (entry 0).file_id, first_block := (entry 0).first_block }

/-- flog_find_file (flogfs.c lines 1689-1751) over the entry stream. -/
def flog_find_file (entry : Nat → flog_inode_file_entry_t)
    (filename : List Nat) (fuel : Nat) : flog_file_find_result_t :=
  flog_find_file_loop filename entry fuel

/-- A directory with a deleted file "b" at entry 0, a live file "a" at
entry 1 and the end marker from entry 2 on (bytes 97 and 98 are the ASCII
codes of a and b). -/
def findEntryW : Nat → flog_inode_file_entry_t :=
  fun i =>
    if i = 0 then
      { file_id := 1, first_block := 4, filename := [98, 0],
        inv_timestamp := 7 }
    else if i = 1 then
      { file_id := 2, first_block := 5, filename := [97, 0],
        inv_timestamp := FLOG_TIMESTAMP_INVALID }
    else
      { file_id := FLOG_FILE_ID_INVALID, first_block := 0, filename := [],
        inv_timestamp := FLOG_TIMESTAMP_INVALID }

/-- flogfs_ls_iterate's filename copy (flogfs.c lines 1189-1193): read
exactly `FLOG_MAX_FNAME_LEN` bytes of the allocation record's filename
field into `fname_dst`, then store a nul byte at index
`FLOG_MAX_FNAME_LEN - 1`.  The result list is the whole region of
`fname_dst` the call writes. -/
def flogfs_ls_copy_name (fname : List Nat) : List Nat :=
  ((List.range FLOG_MAX_FNAME_LEN).map (fun k => fname.getD k 0)).set
    (FLOG_MAX_FNAME_LEN - 1) 0

/-- The loop of flogfs_ls_iterate (flogfs.c lines 1167-1200): stop with 0
(`none`) at an entry whose file id reads all-ones; yield 1 (`some`) with
the copied filename and the advanced iterator at the first entry whose
invalidation timestamp is unwritten; skip invalidated entries.  The fuel
bounds the walk exactly as in `flog_find_file_loop`. -/
def flogfs_ls_iterate (entry : Nat → flog_inode_file_entry_t) :
    Nat → Nat → Option (Nat × List Nat)
  | _, 0 => none
  | i, fuel + 1 =>
      if (entry i).file_id = FLOG_FILE_ID_INVALID then none
      else if (entry i).inv_timestamp = FLOG_TIMESTAMP_INVALID then
        some (i + 1, flogfs_ls_copy_name (entry i).filename)
      else flogfs_ls_iterate entry (i + 1) fuel

/-!
## Mount scan (flogfs_mount, pass 1)

Pass 1 of flogfs_mount (flogfs.c lines 452-530) classifies every block and
aborts at the first block that opens, is not bad and carries a `type_id`
other than INODE, FILE or UNALLOCATED (the `default: goto failure` arm at
lines 514-516).  Pass 2 (the inode-chain walk), pass 3 (allocation fixup)
and pass 4 (deletion fixup), lines 546-643, contain no failure exit and do
not touch `state`; the model keeps their effect abstract, since the claim
concerns only the mount result and the state flag, which are decided by
pass 1, the already-mounted early return (lines 436-439) and the missing-
inode0 check (lines 534-537). -/

/-- The accumulator of mount pass 1. -/
structure MountScan where
  num_free_blocks : Nat
  inode0_idx : Nat
  max_block_age : Nat
  last_allocation_block : Nat
  last_allocation_age : Nat
  last_allocation_file_id : Nat
  last_allocation_timestamp : Nat
deriving Repr, DecidableEq

/-- The initial accumulator (flogfs.c lines 415-428; the fields the source
leaves uninitialized are 0 here). -/
def flog_mount_scan_init : MountScan :=
  { num_free_blocks := 0, inode0_idx := FLOG_BLOCK_IDX_INVALID,
    max_block_age := 0, last_allocation_block := FLOG_BLOCK_IDX_INVALID,
    last_allocation_age := 0, last_allocation_file_id := 0,
    last_allocation_timestamp := 0 }

/-- One iteration of mount pass 1 on block `i` (flogfs.c lines 452-530):
skip blocks whose page 0 fails to open or that the driver reports bad;
INODE blocks record `inode0` when live with inode index 0 and feed the age
maximum; FILE blocks update the latest-allocation record from a written
tail timestamp and feed the age maximum; UNALLOCATED blocks bump the free
count; any other `type_id` is corruption (`none`); finally INODE and FILE
blocks with a written invalidation timestamp also bump the free count. -/
def flog_mount_scan_block (flash : Nat → FlashBlock) (i : Nat)
    (s : MountScan) : Option MountScan :=
  let b := flash i
  if b.openOk = false then some s
  else if b.bad = true then some s
  else if b.type_id = FLOG_BLOCK_TYPE_INODE then
    let s1 :=
      if b.inv_timestamp = FLOG_TIMESTAMP_INVALID ∧ b.inode_index = 0 then
        { s with inode0_idx := i }
      else s
    let s2 :=
      if b.s0_age > s1.max_block_age then
        { s1 with max_block_age := b.s0_age }
      else s1
    some (if b.inv_timestamp ≠ FLOG_TIMESTAMP_INVALID then
      { s2 with num_free_blocks := s2.num_free_blocks + 1 } else s2)
  else if b.type_id = FLOG_BLOCK_TYPE_FILE then
    let s1 :=
      if b.tail_timestamp ≠ FLOG_TIMESTAMP_INVALID
          ∧ b.tail_timestamp > s.last_allocation_timestamp then
        { s with
            last_allocation_timestamp := b.tail_timestamp,
            last_allocation_block := b.tail_next_block,
            last_allocation_age := b.tail_next_age,
            last_allocation_file_id := b.s0_file_id }
      else s
    let s2 :=
      if b.s0_age > s1.max_block_age then
        { s1 with max_block_age := b.s0_age }
      else s1
    some (if b.inv_timestamp ≠ FLOG_TIMESTAMP_INVALID then
      { s2 with num_free_blocks := s2.num_free_blocks + 1 } else s2)
  else if b.type_id = FLOG_BLOCK_TYPE_UNALLOCATED then
    some { s with num_free_blocks := s.num_free_blocks + 1 }
  else none

/-- Fold of pass 1 over a list of block indices, aborting at corruption. -/
def flog_mount_pass1_go (flash : Nat → FlashBlock) :
    List Nat → MountScan → Option MountScan
  | [], s => some s
  | i :: rest, s =>
      match flog_mount_scan_block flash i s with
      | none => none
      | some s1 => flog_mount_pass1_go flash rest s1

/-- Pass 1 over all `FS_NUM_BLOCKS` blocks. -/
def flog_mount_pass1 (flash : Nat → FlashBlock) : Option MountScan :=
  flog_mount_pass1_go flash (List.range FS_NUM_BLOCKS) flog_mount_scan_init

/-- The block-level corruption condition of the claim: the block opens,
is not reported bad, and its sector-0 spare `type_id` is none of INODE,
FILE, UNALLOCATED. -/
abbrev mount_block_corrupt (flash : Nat → FlashBlock) (i : Nat) : Prop :=
  (flash i).openOk = true ∧ (flash i).bad = false ∧
  (flash i).type_id ≠ FLOG_BLOCK_TYPE_INODE ∧
  (flash i).type_id ≠ FLOG_BLOCK_TYPE_FILE ∧
  (flash i).type_id ≠ FLOG_BLOCK_TYPE_UNALLOCATED

/-- Result and state flag of flogfs_mount (flogfs.c lines 347-655): an
already-mounted filesystem returns SUCCESS unchanged; corruption in pass 1
or a missing inode0 returns FAILURE with the state unchanged (RESET); the
recovery passes 2-4 never fail, after which the state becomes MOUNTED and
SUCCESS is returned. -/
def flogfs_mount (flash : Nat → FlashBlock) (state : flog_state_t) :
    flog_result_t × flog_state_t :=
  if state = flog_state_t.FLOG_STATE_MOUNTED then
    (flog_result_t.FLOG_SUCCESS, state)
  else
    match flog_mount_pass1 flash with
    | none => (flog_result_t.FLOG_FAILURE, state)
    | some s =>
        if s.inode0_idx = FLOG_BLOCK_IDX_INVALID then
          (flog_result_t.FLOG_FAILURE, state)
        else (flog_result_t.FLOG_SUCCESS, flog_state_t.FLOG_STATE_MOUNTED)

/-- A flash image whose block 3 carries the unknown `type_id` 77; block 0
is a live inode block, the rest are unallocated. -/
def mountFlashW : Nat → FlashBlock :=
  fun b =>
    if b = 0 then
      { openOk := true, bad := false, type_id := FLOG_BLOCK_TYPE_INODE,
        inode_index := 0, s0_age := 0, s0_file_id := FLOG_FILE_ID_INVALID,
        inv_timestamp := FLOG_TIMESTAMP_INVALID,
        tail_timestamp := FLOG_TIMESTAMP_INVALID,
        tail_next_block := FLOG_BLOCK_IDX_INVALID,
        tail_next_age := FLOG_BLOCK_AGE_INVALID }
    else if b = 3 then
      { openOk := true, bad := false, type_id := 77, inode_index := 0,
        s0_age := 1, s0_file_id := 2,
        inv_timestamp := FLOG_TIMESTAMP_INVALID,
        tail_timestamp := FLOG_TIMESTAMP_INVALID,
        tail_next_block := FLOG_BLOCK_IDX_INVALID,
        tail_next_age := FLOG_BLOCK_AGE_INVALID }
    else
      { openOk := true, bad := false,
        type_id := FLOG_BLOCK_TYPE_UNALLOCATED, inode_index := 0,
        s0_age := FLOG_BLOCK_AGE_INVALID, s0_file_id := FLOG_FILE_ID_INVALID,
        inv_timestamp := FLOG_TIMESTAMP_INVALID,
        tail_timestamp := FLOG_TIMESTAMP_INVALID,
        tail_next_block := FLOG_BLOCK_IDX_INVALID,
        tail_next_age := FLOG_BLOCK_AGE_INVALID }

/-- C1 fails on the code: starting from a state where the stored
`num_free_blocks` (1) equals the recomputed count (1), flog_allocate_block
consumes the single free block 1 and programming its sector-0 header drops
the recomputed count to 0, yet no code path decrements the stored counter,
which stays 1 — the equality claimed invariant is not preserved. -/
theorem num_free_blocks_not_preserved :
    flog_recomputed_free_blocks flashC1 = allocStC1.num_free_blocks
    ∧ (flog_allocate_and_program flashC1 allocStC1 7).2.2 = ⟨1, 0⟩
    ∧ (flog_allocate_and_program flashC1 allocStC1 7).2.1.num_free_blocks = 1
    ∧ flog_recomputed_free_blocks (flog_allocate_and_program flashC1 allocStC1 7).1 = 0
    ∧ (flog_allocate_and_program flashC1 allocStC1 7).2.1.num_free_blocks
        ≠ flog_recomputed_free_blocks (flog_allocate_and_program flashC1 allocStC1 7).1 := by
  decide

/-- C3 fails on the code: pushing onto a singleton preallocation list is a
no-op, because the insertion scan `for(i = n - 1; i; i--)` never examines
index 0.  From the empty list, push block 0 with age 5, then push block 1
with age 3: the claim requires the sorted result `[(1,3), (0,5)]`, but the
second push leaves the list (and `age_sum`) exactly as it was. -/
theorem flog_prealloc_push_singleton_noop :
    (flog_prealloc_push { blocks := [], age_sum := 0 } 0 5).blocks = [⟨0, 5⟩]
    ∧ flog_prealloc_push (flog_prealloc_push { blocks := [], age_sum := 0 } 0 5) 1 3
        = flog_prealloc_push { blocks := [], age_sum := 0 } 0 5
    ∧ (flog_prealloc_push (flog_prealloc_push { blocks := [], age_sum := 0 } 0 5) 1 3).blocks
        ≠ [⟨1, 3⟩, ⟨0, 5⟩] := by
  decide

/-- The tail walk implements first-occurrence removal, i.e. `List.erase`. -/
theorem close_list_unlink_eq_erase (f : Nat) (l : List Nat) :
    close_list_unlink f l = l.erase f := by
  induction l with
  | nil => rfl
  | cons x xs ih =>
      by_cases hx : x = f
      · simp [close_list_unlink, hx, List.erase_cons]
      · simp [close_list_unlink, hx, List.erase_cons, ih]

/-- C7 counterexample.  In the open-read list `[1, 2]`, closing the head
descriptor 1 also drops descriptor 2 (the claim requires the result list
`[2]` and every other open read file kept), and closing descriptor 2, which
is present, returns FLOG_FAILURE (the claim requires success, with failure
exactly when the descriptor is absent). -/
theorem flogfs_close_read_claim_false :
    flogfs_close_read [1, 2] 1 = some ([], flog_result_t.FLOG_SUCCESS)
    ∧ flogfs_close_read [1, 2] 1 ≠ some ([2], flog_result_t.FLOG_SUCCESS)
    ∧ flogfs_close_read [1, 2] 2 = some ([1], flog_result_t.FLOG_FAILURE) := by
  decide

/-- C7 (amended): `flogfs_close_read` empties the entire list and returns
FLOG_SUCCESS exactly when the descriptor is the current head; for a
non-head descriptor it unlinks the first occurrence from the tail
(`List.erase`) but returns FLOG_FAILURE whether or not the descriptor was
found; on an empty list the walk dereferences a null pointer (`none`). -/
theorem flogfs_close_read_spec (l : List Nat) (f : Nat) :
    (l = [] → flogfs_close_read l f = none)
    ∧ (∀ h t, l = h :: t →
        flogfs_close_read l f =
          if h = f then some ([], flog_result_t.FLOG_SUCCESS)
          else some (h :: t.erase f, flog_result_t.FLOG_FAILURE))
    ∧ (∀ r, flogfs_close_read l f = some r →
        (r.2 = flog_result_t.FLOG_SUCCESS ↔ l.head? = some f)) := by
  refine ⟨fun hl => by simp [hl, flogfs_close_read], ?_, ?_⟩
  · intro h t hl
    subst hl
    by_cases hf : h = f
    · simp [flogfs_close_read, hf]
    · simp [flogfs_close_read, hf, close_list_unlink_eq_erase]
  · intro r hr
    match l with
    | [] => simp [flogfs_close_read] at hr
    | h :: t =>
        by_cases hf : h = f
        · simp [flogfs_close_read, hf] at hr
          simp [← hr, hf]
        · simp [flogfs_close_read, hf] at hr
          simp [← hr, hf]

/-- C7 witness: the amended characterization evaluated on the concrete list
`[1, 2]` with descriptor 2. -/
theorem flogfs_close_read_spec_witness :
    flogfs_close_read [1, 2] 2 = some ([1], flog_result_t.FLOG_FAILURE) := by
  have h := (flogfs_close_read_spec [1, 2] 2).2.1 1 [2] rfl
  simpa using h

/-- C8 counterexample.  Descriptor 2 is present in the open-write list
`[1, 2]` but closing it returns FLOG_FAILURE without flushing anything (the
claim requires the flush to run and its result, FLOG_SUCCESS under this
oracle, to be returned). -/
theorem flogfs_close_write_claim_false :
    flogfs_close_write [1, 2] 2 (fun _ => flog_result_t.FLOG_SUCCESS)
      = some ([1], [], flog_result_t.FLOG_FAILURE)
    ∧ flogfs_close_write [1, 2] 2 (fun _ => flog_result_t.FLOG_SUCCESS)
      ≠ some ([1], [2], flog_result_t.FLOG_SUCCESS) := by
  decide

/-- C8 (amended): only when the descriptor is the head of the open-write
list does `flogfs_close_write` flush it and return the flush result, and
then it clears the entire list (dropping every other open write file); a
non-head descriptor is unlinked from the tail when present but is never
flushed and FLOG_FAILURE is returned; on an empty list the walk
dereferences a null pointer (`none`). -/
theorem flogfs_close_write_spec (l : List Nat) (f : Nat)
    (flushResult : Nat → flog_result_t) :
    (l = [] → flogfs_close_write l f flushResult = none)
    ∧ (∀ h t, l = h :: t →
        flogfs_close_write l f flushResult =
          if h = f then some ([], [f], flushResult f)
          else some (h :: t.erase f, [], flog_result_t.FLOG_FAILURE))
    ∧ (∀ r, flogfs_close_write l f flushResult = some r →
        (r.2.1 ≠ [] ↔ l.head? = some f)) := by
  refine ⟨fun hl => by simp [hl, flogfs_close_write], ?_, ?_⟩
  · intro h t hl
    subst hl
    by_cases hf : h = f
    · simp [flogfs_close_write, hf]
    · simp [flogfs_close_write, hf, close_list_unlink_eq_erase]
  · intro r hr
    match l with
    | [] => simp [flogfs_close_write] at hr
    | h :: t =>
        by_cases hf : h = f
        · simp [flogfs_close_write, hf] at hr
          simp [← hr, hf]
        · simp [flogfs_close_write, hf] at hr
          simp [← hr, hf]

/-- C8 witness: the amended characterization evaluated on the concrete list
`[1, 2]` with head descriptor 1 and an all-success flush oracle. -/
theorem flogfs_close_write_spec_witness :
    flogfs_close_write [1, 2] 1 (fun _ => flog_result_t.FLOG_SUCCESS)
      = some ([], [1], flog_result_t.FLOG_SUCCESS) := by
  have h := (flogfs_close_write_spec [1, 2] 1
    (fun _ => flog_result_t.FLOG_SUCCESS)).2.1 1 [2] rfl
  simpa using h

/-- Arithmetic helper: stepping the rotating head commutes with taking
offsets modulo the block count. -/
theorem mod_shift (head m n : Nat) :
    ((head + 1) % n + m) % n = (head + (m + 1)) % n := by
  rw [Nat.mod_add_mod, Nat.add_assoc, Nat.add_comm 1 m]

/-- An in-use block makes the iterator yield the invalid sentinel and only
advance the head. -/
theorem allocate_iterate_of_none (flash : Nat → FlashBlock) (head : Nat)
    (h : flog_scan_free_candidate flash head = none) :
    flog_allocate_block_iterate flash head
      = (⟨FLOG_BLOCK_IDX_INVALID, 0⟩, (head + 1) % FS_NUM_BLOCKS) := by
  unfold flog_scan_free_candidate at h
  unfold flog_allocate_block_iterate
  by_cases h1 : (flash head).s0_age = FLOG_BLOCK_AGE_INVALID
  · simp [h1] at h
  · by_cases h2 : (flash head).inv_timestamp = FLOG_TIMESTAMP_INVALID
    · simp [h1, h2]
    · simp [h1, h2] at h

/-- A free block makes the iterator yield it (the candidate's block index
is the head just examined). -/
theorem allocate_iterate_of_some (flash : Nat → FlashBlock) (head : Nat)
    (c : flog_block_alloc_t)
    (h : flog_scan_free_candidate flash head = some c) :
    flog_allocate_block_iterate flash head = (c, (head + 1) % FS_NUM_BLOCKS)
    ∧ c.block = head := by
  unfold flog_scan_free_candidate at h
  unfold flog_allocate_block_iterate
  by_cases h1 : (flash head).s0_age = FLOG_BLOCK_AGE_INVALID
  · simp [h1] at h
    simp [h1, ← h]
  · by_cases h2 : (flash head).inv_timestamp = FLOG_TIMESTAMP_INVALID
    · simp [h1, h2] at h
    · simp [h1, h2] at h
      simp [h1, h2, ← h]

/-- The scan loop returns the first free candidate in head order, having
skipped exactly the in-use blocks before it, and leaves the head one past
the candidate. -/
theorem allocate_scan_first (flash : Nat → FlashBlock) :
    ∀ (j head fuel : Nat) (c : flog_block_alloc_t),
      head < FS_NUM_BLOCKS → j < fuel →
      (∀ k, k < j →
        flog_scan_free_candidate flash ((head + k) % FS_NUM_BLOCKS) = none) →
      flog_scan_free_candidate flash ((head + j) % FS_NUM_BLOCKS) = some c →
      flog_allocate_scan flash fuel head = (c, (head + j + 1) % FS_NUM_BLOCKS) := by
  intro j
  induction j with
  | zero =>
      intro head fuel c hh hf _ hc
      match fuel, hf with
      | fuel + 1, _ =>
        rw [Nat.add_zero, Nat.mod_eq_of_lt hh] at hc
        have hit := allocate_iterate_of_some flash head c hc
        have hb : c.block ≠ FLOG_BLOCK_IDX_INVALID := by
          rw [hit.2]
          have hlt : FS_NUM_BLOCKS < FLOG_BLOCK_IDX_INVALID := by decide
          omega
        simp only [flog_allocate_scan]
        rw [hit.1]
        simp [hb]
  | succ j ih =>
      intro head fuel c hh hf hnone hc
      match fuel, hf with
      | fuel + 1, hf =>
        have h0 : flog_scan_free_candidate flash head = none := by
          have h00 := hnone 0 (Nat.succ_pos j)
          rwa [Nat.add_zero, Nat.mod_eq_of_lt hh] at h00
        have hstep := allocate_iterate_of_none flash head h0
        have hred : flog_allocate_scan flash (fuel + 1) head
            = flog_allocate_scan flash fuel ((head + 1) % FS_NUM_BLOCKS) := by
          simp only [flog_allocate_scan]
          rw [hstep]
          simp
        have hh1 : (head + 1) % FS_NUM_BLOCKS < FS_NUM_BLOCKS :=
          Nat.mod_lt _ (by decide)
        have hih := ih ((head + 1) % FS_NUM_BLOCKS) fuel c hh1 (by omega)
          (fun k hk => by
            rw [mod_shift]
            exact hnone (k + 1) (by omega))
          (by rw [mod_shift]; exact hc)
        rw [hred, hih]
        have ha : (head + 1) % FS_NUM_BLOCKS + j + 1
            = (head + 1) % FS_NUM_BLOCKS + (j + 1) := by omega
        rw [ha, mod_shift]
        have hb : head + (j + 1 + 1) = head + (j + 1) + 1 := by omega
        rw [hb]

/-- When every block in the window is in use, the scan loop exhausts its
iterations, yields the invalid sentinel and advances the head by the fuel. -/
theorem allocate_scan_all_none (flash : Nat → FlashBlock) :
    ∀ (fuel head : Nat), head < FS_NUM_BLOCKS →
      (∀ k, k < fuel →
        flog_scan_free_candidate flash ((head + k) % FS_NUM_BLOCKS) = none) →
      flog_allocate_scan flash fuel head
        = (⟨FLOG_BLOCK_IDX_INVALID, 0⟩, (head + fuel) % FS_NUM_BLOCKS) := by
  intro fuel
  induction fuel with
  | zero =>
      intro head hh _
      simp [flog_allocate_scan, Nat.mod_eq_of_lt hh]
  | succ fuel ih =>
      intro head hh hnone
      have h0 : flog_scan_free_candidate flash head = none := by
        have h00 := hnone 0 (Nat.succ_pos fuel)
        rwa [Nat.add_zero, Nat.mod_eq_of_lt hh] at h00
      have hstep := allocate_iterate_of_none flash head h0
      have hred : flog_allocate_scan flash (fuel + 1) head
          = flog_allocate_scan flash fuel ((head + 1) % FS_NUM_BLOCKS) := by
        simp only [flog_allocate_scan]
        rw [hstep]
        simp
      have hih := ih ((head + 1) % FS_NUM_BLOCKS) (Nat.mod_lt _ (by decide))
        (fun k hk => by
          rw [mod_shift]
          exact hnone (k + 1) (by omega))
      rw [hred, hih, mod_shift]

/-- C2: flog_allocate_block returns the invalid sentinel when
`num_free_blocks = 0`; otherwise, when the preallocation list is non-empty,
it returns its entry 0 removed by flog_prealloc_pop; otherwise it scans at
most `FS_NUM_BLOCKS` blocks from `allocate_head`, advancing the head modulo
`FS_NUM_BLOCKS` at each step, skipping exactly the in-use blocks (so no
free candidate precedes the returned one, and the preallocation list is
left as the scan found it), and returns the first free candidate — free
with age 0 when the sector-0 age reads all-ones, free with the sector-0 age
when the invalidation timestamp is written; if none exists in the whole
window it returns the invalid sentinel after `FS_NUM_BLOCKS` steps. -/
theorem flog_allocate_block_spec (flash : Nat → FlashBlock) (st : AllocState) :
    (st.num_free_blocks = 0 →
      flog_allocate_block flash st = (⟨FLOG_BLOCK_IDX_INVALID, 0⟩, st))
    ∧ (∀ b rest, st.num_free_blocks ≠ 0 → st.prealloc.blocks = b :: rest →
        b.block ≠ FLOG_BLOCK_IDX_INVALID →
        flog_allocate_block flash st =
          (b, { st with prealloc :=
            { blocks := rest, age_sum := st.prealloc.age_sum } }))
    ∧ (∀ j c, st.num_free_blocks ≠ 0 → st.prealloc.blocks = [] →
        st.allocate_head < FS_NUM_BLOCKS → j < FS_NUM_BLOCKS →
        (∀ k, k < j → flog_scan_free_candidate flash
          ((st.allocate_head + k) % FS_NUM_BLOCKS) = none) →
        flog_scan_free_candidate flash
          ((st.allocate_head + j) % FS_NUM_BLOCKS) = some c →
        flog_allocate_block flash st =
          (c, { st with allocate_head :=
            (st.allocate_head + j + 1) % FS_NUM_BLOCKS }))
    ∧ (st.num_free_blocks ≠ 0 → st.prealloc.blocks = [] →
        st.allocate_head < FS_NUM_BLOCKS →
        (∀ k, k < FS_NUM_BLOCKS → flog_scan_free_candidate flash
          ((st.allocate_head + k) % FS_NUM_BLOCKS) = none) →
        flog_allocate_block flash st = (⟨FLOG_BLOCK_IDX_INVALID, 0⟩, st)) := by
  obtain ⟨nf, ⟨bl, asum⟩, ah⟩ := st
  refine ⟨?_, ?_, ?_, ?_⟩
  · intro h
    simp only at h
    simp [flog_allocate_block, h]
  · intro b rest hnf hbl hbne
    simp only at hnf hbl
    subst hbl
    simp [flog_allocate_block, flog_prealloc_pop, hnf, hbne]
  · intro j c hnf hbl hh hj hnone hc
    simp only at hnf hbl hh hnone hc
    subst hbl
    have hscan := allocate_scan_first flash j ah FS_NUM_BLOCKS c hh hj hnone hc
    simp [flog_allocate_block, flog_prealloc_pop, hnf, FLOG_BLOCK_IDX_INVALID,
      hscan]
  · intro hnf hbl hh hnone
    simp only at hnf hbl hh hnone
    subst hbl
    have hscan := allocate_scan_all_none flash FS_NUM_BLOCKS ah hh hnone
    have hmod : (ah + FS_NUM_BLOCKS) % FS_NUM_BLOCKS = ah := by
      rw [Nat.add_mod_right]
      exact Nat.mod_eq_of_lt hh
    rw [hmod] at hscan
    simp [flog_allocate_block, flog_prealloc_pop, hnf, FLOG_BLOCK_IDX_INVALID,
      hscan]

/-- C2 witness: on `allocFlashW` (block 0 in use, block 1 erased) with one
free block, an empty preallocation list and the head at 0, the allocator
skips block 0, returns the never-allocated block 1 with age 0, and leaves
the head at 2. -/
theorem flog_allocate_block_spec_witness :
    flog_allocate_block allocFlashW allocStW
      = (⟨1, 0⟩, { allocStW with allocate_head :=
          (allocStW.allocate_head + 1 + 1) % FS_NUM_BLOCKS }) :=
  (flog_allocate_block_spec allocFlashW allocStW).2.2.1 1 ⟨1, 0⟩
    (by decide) (by decide) (by decide) (by decide)
    (by decide) (by decide)

/-- flog_commit_file_sector fails exactly at a tail sector with no free
block available, and then the state is untouched (no seal is written). -/
theorem flog_commit_file_sector_none (st : WriteSt) (n : Nat) :
    flog_commit_file_sector st n = none ↔
      st.file.sector = FLOG_FILE_TAIL_SECTOR ∧ st.supply = [] := by
  unfold flog_commit_file_sector
  by_cases hs : st.file.sector = FLOG_FILE_TAIL_SECTOR
  · cases hsup : st.supply with
    | nil => simp [hs, hsup]
    | cons nb rest => simp [hs, hsup]
  · simp [hs]

/-- A successful commit preserves the writer invariant: the current sector
always has capacity left, the current block is unsealed, and the allocator
supply consists of distinct blocks that are neither sealed nor current. -/
theorem flog_commit_file_sector_inv (st st1 : WriteSt) (n : Nat)
    (h : flog_commit_file_sector st n = some st1)
    (hblock : st.file.block ∉ st.sealed)
    (hsupply : ∀ c ∈ st.supply, c.block ∉ st.sealed ∧ c.block ≠ st.file.block)
    (hnodup : (st.supply.map flog_block_alloc_t.block).Nodup) :
    1 ≤ st1.file.sector_remaining_bytes
    ∧ st1.file.block ∉ st1.sealed
    ∧ (∀ c ∈ st1.supply, c.block ∉ st1.sealed ∧ c.block ≠ st1.file.block)
    ∧ (st1.supply.map flog_block_alloc_t.block).Nodup := by
  unfold flog_commit_file_sector at h
  by_cases hs : st.file.sector = FLOG_FILE_TAIL_SECTOR
  · rw [if_pos hs] at h
    cases hsup : st.supply with
    | nil => rw [hsup] at h; simp at h
    | cons nb rest =>
        rw [hsup] at h
        simp only [Option.some.injEq] at h
        subst h
        dsimp only
        have hnb := hsupply nb (by rw [hsup]; exact List.mem_cons_self nb rest)
        have hmap : (st.supply.map flog_block_alloc_t.block)
            = nb.block :: rest.map flog_block_alloc_t.block := by
          rw [hsup, List.map_cons]
        rw [hmap, List.nodup_cons] at hnodup
        refine ⟨by decide, ?_, ?_, hnodup.2⟩
        · intro hmem
          rcases List.mem_append.mp hmem with h1 | h1
          · exact hnb.1 h1
          · exact hnb.2 (List.mem_singleton.mp h1)
        · intro c hc
          have hcs := hsupply c (by rw [hsup]; exact List.mem_cons_of_mem nb hc)
          refine ⟨?_, ?_⟩
          · intro hmem
            rcases List.mem_append.mp hmem with h1 | h1
            · exact hcs.1 h1
            · exact hcs.2 (List.mem_singleton.mp h1)
          · intro heq
            exact hnodup.1 (heq ▸ List.mem_map_of_mem flog_block_alloc_t.block hc)
  · rw [if_neg hs] at h
    simp only [Option.some.injEq] at h
    subst h
    dsimp only
    refine ⟨?_, hblock, ?_, hnodup⟩
    · split
      · decide
      · decide
    · intro c hc
      exact hsupply c hc

/-- Byte accounting of the flogfs_write loop: the returned count lies
between the count so far and the full request, and it falls short of the
full request only when a tail-sector commit found the allocator supply
empty, in which case the final descriptor still sits at its tail sector
and that block's tail was never sealed. -/
theorem flogfs_write_loop_spec (fuel : Nat) :
    ∀ (st : WriteSt) (nbytes count : Nat), nbytes < fuel →
      1 ≤ st.file.sector_remaining_bytes →
      st.file.block ∉ st.sealed →
      (∀ c ∈ st.supply, c.block ∉ st.sealed ∧ c.block ≠ st.file.block) →
      (st.supply.map flog_block_alloc_t.block).Nodup →
      count ≤ (flogfs_write_loop st nbytes count fuel).1
      ∧ (flogfs_write_loop st nbytes count fuel).1 ≤ count + nbytes
      ∧ ((flogfs_write_loop st nbytes count fuel).1 = count + nbytes
         ∨ ((flogfs_write_loop st nbytes count fuel).1 < count + nbytes
            ∧ (flogfs_write_loop st nbytes count fuel).2.supply = []
            ∧ (flogfs_write_loop st nbytes count fuel).2.file.sector
                = FLOG_FILE_TAIL_SECTOR
            ∧ (flogfs_write_loop st nbytes count fuel).2.file.block
                ∉ (flogfs_write_loop st nbytes count fuel).2.sealed)) := by
  induction fuel with
  | zero =>
      intro st nbytes count hf _ _ _ _
      exact absurd hf (Nat.not_lt_zero nbytes)
  | succ fuel ih =>
      intro st nbytes count hf hrem hblock hsupply hnodup
      by_cases h0 : nbytes = 0
      · subst h0
        simp [flogfs_write_loop]
      · by_cases hle : st.file.sector_remaining_bytes ≤ nbytes
        · rcases hcm : flog_commit_file_sector st st.file.sector_remaining_bytes
            with _ | st1
          · have hfail :=
              (flog_commit_file_sector_none st st.file.sector_remaining_bytes).mp hcm
            have hloop : flogfs_write_loop st nbytes count (fuel + 1)
                = (count, st) := by
              simp [flogfs_write_loop, h0, hle, hcm]
            rw [hloop]
            exact ⟨le_refl _, Nat.le_add_right _ _,
              Or.inr ⟨by omega, hfail.2, hfail.1, hblock⟩⟩
          · have hinv := flog_commit_file_sector_inv st st1 _ hcm hblock hsupply
              hnodup
            have hloop : flogfs_write_loop st nbytes count (fuel + 1)
                = flogfs_write_loop st1 (nbytes - st.file.sector_remaining_bytes)
                    (count + st.file.sector_remaining_bytes) fuel := by
              simp [flogfs_write_loop, h0, hle, hcm]
            have hih := ih st1 (nbytes - st.file.sector_remaining_bytes)
              (count + st.file.sector_remaining_bytes) (by omega)
              hinv.1 hinv.2.1 hinv.2.2.1 hinv.2.2.2
            obtain ⟨hA, hB, hC⟩ := hih
            rw [hloop]
            refine ⟨by omega, by omega, ?_⟩
            rcases hC with hC | hC
            · left; omega
            · right; exact ⟨by omega, hC.2.1, hC.2.2.1, hC.2.2.2⟩
        · have hloop : flogfs_write_loop st nbytes count (fuel + 1)
              = (count + nbytes,
                 { st with file := { st.file with
                     sector_remaining_bytes :=
                       st.file.sector_remaining_bytes - nbytes,
                     offset := st.file.offset + nbytes,
                     bytes_in_block := st.file.bytes_in_block + nbytes,
                     write_head := st.file.write_head + nbytes } }) := by
            simp [flogfs_write_loop, h0, hle]
          rw [hloop]
          exact ⟨Nat.le_add_right _ _, le_refl _, Or.inl rfl⟩

/-- C4: flogfs_write returns the number of bytes accepted into the file;
this equals the requested `nbytes` except when a block allocation fails
during a tail-sector commit (no free block available), in which case the
returned count is the bytes written so far, strictly less than `nbytes`,
the descriptor still sits at the tail sector and that block's tail sector
was not sealed.  Hypotheses: the current sector has capacity left (true of
every descriptor flogfs_open_write or a commit produces), the current
block is unsealed, and the allocator hands out distinct unused blocks. -/
theorem flogfs_write_spec (st : WriteSt) (nbytes : Nat)
    (hrem : 1 ≤ st.file.sector_remaining_bytes)
    (hblock : st.file.block ∉ st.sealed)
    (hsupply : ∀ c ∈ st.supply, c.block ∉ st.sealed ∧ c.block ≠ st.file.block)
    (hnodup : (st.supply.map flog_block_alloc_t.block).Nodup) :
    (flogfs_write st nbytes).1 ≤ nbytes
    ∧ ((flogfs_write st nbytes).1 = nbytes
       ∨ ((flogfs_write st nbytes).1 < nbytes
          ∧ (flogfs_write st nbytes).2.supply = []
          ∧ (flogfs_write st nbytes).2.file.sector = FLOG_FILE_TAIL_SECTOR
          ∧ (flogfs_write st nbytes).2.file.block
              ∉ (flogfs_write st nbytes).2.sealed)) := by
  have h := flogfs_write_loop_spec (nbytes + 1) st nbytes 0 (by omega) hrem
    hblock hsupply hnodup
  unfold flogfs_write
  obtain ⟨h1, h2, h3⟩ := h
  refine ⟨by omega, ?_⟩
  rcases h3 with h3 | h3
  · left; omega
  · right; exact ⟨by omega, h3.2.1, h3.2.2.1, h3.2.2.2⟩

/-- C4 witness: a descriptor at its tail sector with 496 free bytes and an
exhausted allocator; a 600-byte write must come up short without sealing
the tail. -/
theorem flogfs_write_spec_witness :
    (flogfs_write writeStW 600).1 ≤ 600
    ∧ ((flogfs_write writeStW 600).1 = 600
       ∨ ((flogfs_write writeStW 600).1 < 600
          ∧ (flogfs_write writeStW 600).2.supply = []
          ∧ (flogfs_write writeStW 600).2.file.sector = FLOG_FILE_TAIL_SECTOR
          ∧ (flogfs_write writeStW 600).2.file.block
              ∉ (flogfs_write writeStW 600).2.sealed)) :=
  flogfs_write_spec writeStW 600 (by decide) (by decide) (by decide) (by decide)

/-- The read loop returns at most the count accumulated so far plus the
bytes requested, whatever the flash contents and fuel. -/
theorem flogfs_read_loop_le (fl : ReadFlash) (fuel : Nat) :
    ∀ (file : flog_read_file_t) (nbytes count : Nat),
      (flogfs_read_loop fl file nbytes count fuel).1 ≤ count + nbytes := by
  induction fuel with
  | zero =>
      intro file nbytes count
      simp [flogfs_read_loop]
  | succ fuel ih =>
      intro file nbytes count
      by_cases h0 : nbytes = 0
      · simp [flogfs_read_loop, h0]
      · by_cases h1 : file.sector_remaining_bytes = 0
        · by_cases h2 : file.sector = FLOG_FILE_TAIL_SECTOR
          · by_cases h3 : fl.file_id (fl.next_block file.block) = file.id
            · simp only [flogfs_read_loop, h0, h1, h2, h3]
              simp only [reduceIte, ite_false, if_neg, ne_eq,
                not_true_eq_false, if_false]
              simp
              exact ih _ _ _
            · simp [flogfs_read_loop, h0, h1, h2, h3]
          · by_cases h3 : fl.spare_nbytes file.block
                (flog_increment_sector file.sector) = FLOG_SECTOR_NBYTES_INVALID
            · simp [flogfs_read_loop, h0, h1, h2, h3]
            · simp only [flogfs_read_loop, h0, h1, h2, h3]
              simp
              refine le_trans (ih _ _ _) ?_
              omega
        · simp only [flogfs_read_loop, h0, h1]
          simp
          have hmin : min nbytes file.sector_remaining_bytes ≤ nbytes :=
            Nat.min_le_left _ _
          refine le_trans (ih _ _ _) ?_
          omega

/-- C5: flogfs_read returns the total number of bytes copied, at most the
`nbytes` requested; and at end of file — the current sector exhausted and
either (tail sector) the successor block's sector-0 file id differing from
the file's id, or (non-tail) the next sector's spare byte count reading the
all-ones unwritten sentinel — it returns the bytes read so far (zero here,
at entry) with the descriptor unmoved, signaling no error (the function's
only channel is the returned count). -/
theorem flogfs_read_spec (fl : ReadFlash) (file : flog_read_file_t)
    (nbytes fuel : Nat) :
    (flogfs_read fl file nbytes fuel).1 ≤ nbytes
    ∧ (file.sector_remaining_bytes = 0 →
        file.sector = FLOG_FILE_TAIL_SECTOR →
        fl.file_id (fl.next_block file.block) ≠ file.id →
        flogfs_read fl file nbytes fuel = (0, file))
    ∧ (file.sector_remaining_bytes = 0 →
        file.sector ≠ FLOG_FILE_TAIL_SECTOR →
        fl.spare_nbytes file.block (flog_increment_sector file.sector)
          = FLOG_SECTOR_NBYTES_INVALID →
        flogfs_read fl file nbytes fuel = (0, file)) := by
  refine ⟨?_, ?_, ?_⟩
  · have h := flogfs_read_loop_le fl fuel file nbytes 0
    unfold flogfs_read
    omega
  · intro h1 h2 h3
    unfold flogfs_read
    cases fuel with
    | zero => rfl
    | succ fuel =>
        by_cases h0 : nbytes = 0
        · simp [flogfs_read_loop, h0]
        · simp [flogfs_read_loop, h0, h1, h2, h3]
  · intro h1 h2 h3
    unfold flogfs_read
    cases fuel with
    | zero => rfl
    | succ fuel =>
        by_cases h0 : nbytes = 0
        · simp [flogfs_read_loop, h0]
        · simp [flogfs_read_loop, h0, h1, h2, h3]

/-- C5 witness: a reader at an exhausted tail sector of a chain that was
never extended reads 0 bytes out of 10 requested and is left unmoved. -/
theorem flogfs_read_spec_witness :
    flogfs_read readFlashW readFileW 10 20 = (0, readFileW) :=
  (flogfs_read_spec readFlashW readFileW 10 20).2.1 rfl rfl (by decide)

/-- C6: flog_find_file walks the inode entries from inode0; with every
entry before index `k` skippable (valid file id, and either a filename
mismatch under `strncmp` with bound `FLOG_MAX_FNAME_LEN` or a written
invalidation timestamp), if entry `k` carries the all-ones file id the
result is not-found (`first_block` the invalid sentinel), and if entry `k`
matches the filename with an unwritten (all-ones) invalidation timestamp
the result is that entry's `{file_id, first_block}`. -/
theorem flog_find_file_spec (entry : Nat → flog_inode_file_entry_t)
    (filename : List Nat) (k fuel : Nat)
    (hfuel : k < fuel)
    (hbefore : ∀ i, i < k → (entry i).file_id ≠ FLOG_FILE_ID_INVALID ∧
        (cstr_eq_n filename (entry i).filename 0 FLOG_MAX_FNAME_LEN = false
         ∨ (entry i).inv_timestamp ≠ FLOG_TIMESTAMP_INVALID)) :
    ((entry k).file_id = FLOG_FILE_ID_INVALID →
      flog_find_file entry filename fuel
        = { file_id := 0, first_block := FLOG_BLOCK_IDX_INVALID })
    ∧ ((entry k).file_id ≠ FLOG_FILE_ID_INVALID →
        cstr_eq_n filename (entry k).filename 0 FLOG_MAX_FNAME_LEN = true →
        (entry k).inv_timestamp = FLOG_TIMESTAMP_INVALID →
        flog_find_file entry filename fuel
          = { file_id := (entry k).file_id,
              first_block := (entry k).first_block }) := by
  induction k generalizing entry fuel with
  | zero =>
      cases fuel with
      | zero => exact absurd hfuel (Nat.not_lt_zero 0)
      | succ fuel =>
          constructor
          · intro h
            unfold flog_find_file
            simp [flog_find_file_loop, h]
          · intro h1 h2 h3
            unfold flog_find_file
            simp [flog_find_file_loop, h1, h2, h3]
  | succ k ih =>
      cases fuel with
      | zero => exact absurd hfuel (Nat.not_lt_zero _)
      | succ fuel =>
          have h0 := hbefore 0 (Nat.succ_pos k)
          have hred : flog_find_file entry filename (fuel + 1)
              = flog_find_file (fun j => entry (j + 1)) filename fuel := by
            unfold flog_find_file
            by_cases hm : cstr_eq_n filename (entry 0).filename 0
                FLOG_MAX_FNAME_LEN = false
            · simp [flog_find_file_loop, h0.1, hm]
            · have hv : (entry 0).inv_timestamp ≠ FLOG_TIMESTAMP_INVALID := by
                rcases h0.2 with hc | hc
                · exact absurd hc hm
                · exact hc
              simp [flog_find_file_loop, h0.1, hm, hv]
          rw [hred]
          exact ih (fun j => entry (j + 1)) fuel (by omega)
            (fun i hi => hbefore (i + 1) (by omega))

/-- C6 witness: searching for name "a" skips the deleted entry 0 and
returns entry 1's id and first block. -/
theorem flog_find_file_spec_witness :
    flog_find_file findEntryW [97, 0] 3
      = { file_id := 2, first_block := 5 } :=
  (flog_find_file_spec findEntryW [97, 0] 1 3 (by decide) (by decide)).2
    (by decide) (by decide) (by decide)

/-- A corrupt block aborts its pass-1 iteration. -/
theorem mount_scan_block_none_of_corrupt (flash : Nat → FlashBlock) (i : Nat)
    (s : MountScan) (h : mount_block_corrupt flash i) :
    flog_mount_scan_block flash i s = none := by
  obtain ⟨h1, h2, h3, h4, h5⟩ := h
  unfold flog_mount_scan_block
  simp [h1, h2, h3, h4, h5]

/-- Pass 1 aborts whenever its index list contains a corrupt block. -/
theorem mount_pass1_go_none (flash : Nat → FlashBlock) :
    ∀ (l : List Nat) (s : MountScan),
      (∃ i ∈ l, mount_block_corrupt flash i) →
      flog_mount_pass1_go flash l s = none := by
  intro l
  induction l with
  | nil =>
      intro s h
      obtain ⟨i, hi, _⟩ := h
      exact absurd hi (List.not_mem_nil i)
  | cons j rest ih =>
      intro s h
      obtain ⟨i, hi, hc⟩ := h
      rcases hsb : flog_mount_scan_block flash j s with _ | s1
      · simp [flog_mount_pass1_go, hsb]
      · rcases List.mem_cons.mp hi with hij | hir
        · subst hij
          rw [mount_scan_block_none_of_corrupt flash i s hc] at hsb
          exact Option.noConfusion hsb
        · simp only [flog_mount_pass1_go, hsb]
          exact ih s1 ⟨i, hir, hc⟩

/-- C9: if any block of the device opens successfully, is not reported bad
and carries a sector-0 spare `type_id` other than INODE, FILE or
UNALLOCATED, then flogfs_mount (called on a not-yet-mounted filesystem)
returns FLOG_FAILURE and the state does not become MOUNTED. -/
theorem flogfs_mount_corrupt_fails (flash : Nat → FlashBlock)
    (state : flog_state_t) (i : Nat)
    (hst : state ≠ flog_state_t.FLOG_STATE_MOUNTED)
    (hi : i < FS_NUM_BLOCKS)
    (hc : mount_block_corrupt flash i) :
    flogfs_mount flash state = (flog_result_t.FLOG_FAILURE, state)
    ∧ (flogfs_mount flash state).2 ≠ flog_state_t.FLOG_STATE_MOUNTED := by
  have hnone : flog_mount_pass1 flash = none :=
    mount_pass1_go_none flash (List.range FS_NUM_BLOCKS) flog_mount_scan_init
      ⟨i, List.mem_range.mpr hi, hc⟩
  have hm : flogfs_mount flash state = (flog_result_t.FLOG_FAILURE, state) := by
    unfold flogfs_mount
    rw [if_neg hst, hnone]
  refine ⟨hm, ?_⟩
  rw [hm]
  exact hst

/-- C9 witness: mounting the image whose block 3 carries `type_id` 77
fails and leaves the state RESET. -/
theorem flogfs_mount_corrupt_fails_witness :
    flogfs_mount mountFlashW flog_state_t.FLOG_STATE_RESET
      = (flog_result_t.FLOG_FAILURE, flog_state_t.FLOG_STATE_RESET)
    ∧ (flogfs_mount mountFlashW flog_state_t.FLOG_STATE_RESET).2
        ≠ flog_state_t.FLOG_STATE_MOUNTED :=
  flogfs_mount_corrupt_fails mountFlashW flog_state_t.FLOG_STATE_RESET 3
    (by decide) (by decide) (by decide)

/-- Setting an element at or past the taken prefix leaves the prefix
unchanged. -/
theorem take_set_of_le {α : Type} (v : α) :
    ∀ (l : List α) (k n : Nat), n ≤ k → (l.set k v).take n = l.take n := by
  intro l
  induction l with
  | nil => intro k n _; simp
  | cons x xs ih =>
      intro k n h
      cases k with
      | zero =>
          have hn : n = 0 := Nat.le_zero.mp h
          subst hn
          simp
      | succ k =>
          cases n with
          | zero => simp
          | succ n =>
              simp only [List.set_cons_succ, List.take_succ_cons]
              rw [ih k n (Nat.succ_le_succ_iff.mp h)]

/-- The copied name is exactly `FLOG_MAX_FNAME_LEN` bytes long. -/
theorem flogfs_ls_copy_name_length (fname : List Nat) :
    (flogfs_ls_copy_name fname).length = FLOG_MAX_FNAME_LEN := by
  simp [flogfs_ls_copy_name]

/-- The copied name's final byte, at index `FLOG_MAX_FNAME_LEN - 1`, is
nul. -/
theorem flogfs_ls_copy_name_last (fname : List Nat) :
    (flogfs_ls_copy_name fname).getD (FLOG_MAX_FNAME_LEN - 1) 1 = 0 := by
  unfold flogfs_ls_copy_name
  rw [List.getD_eq_getElem?_getD, List.getElem?_set_self]
  · rfl
  · simp only [List.length_map, List.length_range]
    decide

/-- The first `FLOG_MAX_FNAME_LEN - 1` bytes of the copied name are the
record's filename bytes, untouched by the nul store. -/
theorem flogfs_ls_copy_name_take (fname : List Nat) :
    (flogfs_ls_copy_name fname).take (FLOG_MAX_FNAME_LEN - 1)
      = (List.range (FLOG_MAX_FNAME_LEN - 1)).map (fun k => fname.getD k 0) := by
  unfold flogfs_ls_copy_name
  rw [take_set_of_le _ _ _ _ (le_refl _), ← List.map_take, List.take_range]
  have hmin : min (FLOG_MAX_FNAME_LEN - 1) FLOG_MAX_FNAME_LEN
      = FLOG_MAX_FNAME_LEN - 1 := by decide
  rw [hmin]

/-- C10: whenever flogfs_ls_iterate yields an entry, the name it wrote is
exactly `FLOG_MAX_FNAME_LEN` bytes (no more is ever written), its byte at
index `FLOG_MAX_FNAME_LEN - 1` is nul — so it is nul-terminated within the
first `FLOG_MAX_FNAME_LEN` bytes — and its first `FLOG_MAX_FNAME_LEN - 1`
bytes are copied verbatim from the yielded entry's allocation record. -/
theorem flogfs_ls_iterate_name_spec (entry : Nat → flog_inode_file_entry_t)
    (fuel i next : Nat) (name : List Nat)
    (h : flogfs_ls_iterate entry i fuel = some (next, name)) :
    name.length = FLOG_MAX_FNAME_LEN
    ∧ name.getD (FLOG_MAX_FNAME_LEN - 1) 1 = 0
    ∧ ∃ j, i ≤ j ∧ name = flogfs_ls_copy_name (entry j).filename
        ∧ name.take (FLOG_MAX_FNAME_LEN - 1)
            = (List.range (FLOG_MAX_FNAME_LEN - 1)).map
                (fun m => (entry j).filename.getD m 0) := by
  induction fuel generalizing i next name with
  | zero => simp [flogfs_ls_iterate] at h
  | succ fuel ih =>
      by_cases h1 : (entry i).file_id = FLOG_FILE_ID_INVALID
      · simp [flogfs_ls_iterate, h1] at h
      · by_cases h2 : (entry i).inv_timestamp = FLOG_TIMESTAMP_INVALID
        · simp [flogfs_ls_iterate, h1, h2] at h
          obtain ⟨hn, hname⟩ := h
          subst hname
          exact ⟨flogfs_ls_copy_name_length _, flogfs_ls_copy_name_last _,
            ⟨i, le_refl i, rfl, flogfs_ls_copy_name_take _⟩⟩
        · simp [flogfs_ls_iterate, h1, h2] at h
          obtain ⟨hlen, hlast, j, hij, hrest⟩ := ih (i + 1) next name h
          exact ⟨hlen, hlast, ⟨j, by omega, hrest⟩⟩

/-- C10 witness: iterating the concrete directory skips the deleted entry
0 and yields entry 1's name, 32 bytes long and nul-terminated. -/
theorem flogfs_ls_iterate_name_spec_witness :
    (flogfs_ls_copy_name (findEntryW 1).filename).length = FLOG_MAX_FNAME_LEN
    ∧ (flogfs_ls_copy_name (findEntryW 1).filename).getD
        (FLOG_MAX_FNAME_LEN - 1) 1 = 0
    ∧ ∃ j, 0 ≤ j
        ∧ flogfs_ls_copy_name (findEntryW 1).filename
            = flogfs_ls_copy_name (findEntryW j).filename
        ∧ (flogfs_ls_copy_name (findEntryW 1).filename).take
            (FLOG_MAX_FNAME_LEN - 1)
            = (List.range (FLOG_MAX_FNAME_LEN - 1)).map
                (fun m => (findEntryW j).filename.getD m 0) :=
  flogfs_ls_iterate_name_spec findEntryW 3 0 2
    (flogfs_ls_copy_name (findEntryW 1).filename) (by decide)

end FLogFS
